import Mathlib

/-!
Verification of the bridge layer of the arch-manager repository
(`src/bridge/protocol.py`, `src/bridge/backend.py`, `src/bridge/errors.py`).

The Python code is shallowly embedded: JSON values are modelled by `JValue`
(JSON numbers are modelled as integers; float payloads do not occur in any
of the verified behaviours), Python dicts by insertion-ordered association
lists, fallible code by `Option`/`Except`, and the subprocess boundary by an
explicit environment record.  The stdlib `json` module's `raw_decode` and the
pydantic serializer are embedded as an executable parser and printer over
`JValue`.
-/

namespace Bridge

/-- A JSON value as handled by the Python `json` module and pydantic.
Numbers are modelled as integers (the bridge never produces float payloads);
object members keep the insertion order of the Python dict. -/
inductive JValue where
  | jnull : JValue
  | jbool : Bool → JValue
  | jnum : Int → JValue
  | jstr : String → JValue
  | jarr : List JValue → JValue
  | jobj : List (String × JValue) → JValue

/-- `d.get(k)` on a Python dict modelled as an association list:
the first binding of the key (dicts never hold a key twice). -/
def listGet : List (String × JValue) → String → Option JValue
  | [], _ => none
  | (k, v) :: rest, key => if k = key then some v else listGet rest key

/-- `d.get(k, default)` on a Python dict. -/
def listGetD (kvs : List (String × JValue)) (key : String) (dflt : JValue) : JValue :=
  (listGet kvs key).getD dflt

/-- One step of building a Python dict from a key/value pair: an existing key
keeps its position but takes the new value, a fresh key is appended. -/
def pyDictInsert : List (String × JValue) → String × JValue → List (String × JValue)
  | [], kv => [kv]
  | (k, v) :: rest, (k', v') =>
      if k = k' then (k, v') :: rest else (k, v) :: pyDictInsert rest (k', v')

/-- Python dict construction from a sequence of key/value pairs
(later occurrences of a key overwrite earlier ones in place). -/
def pyDictOfPairs (kvs : List (String × JValue)) : List (String × JValue) :=
  kvs.foldl pyDictInsert []

/-- The keys of an association list, in order. -/
def keysOf (kvs : List (String × JValue)) : List String := kvs.map Prod.fst

/-! ## JSON printing (the pydantic `model_dump_json` wire form: compact,
separators `,` and `:`, strings with the standard JSON escapes) -/

/-- Lower-case hex digit for a value below 16. -/
def hexDigitChar (n : Nat) : Char :=
  if n < 10 then Char.ofNat (48 + n) else Char.ofNat (87 + n)

/-- JSON escape of one character: quote and backslash get a backslash escape,
the named control characters their short forms, other control characters a
`\u00XX` escape, and everything else passes through. -/
def escChar (c : Char) : List Char :=
  if c = '"' then ['\\', '"']
  else if c = '\\' then ['\\', '\\']
  else if c = '\x08' then ['\\', 'b']
  else if c = '\x0c' then ['\\', 'f']
  else if c = '\n' then ['\\', 'n']
  else if c = '\r' then ['\\', 'r']
  else if c = '\t' then ['\\', 't']
  else if c.toNat < 32 then
    ['\\', 'u', '0', '0', hexDigitChar (c.toNat / 16), hexDigitChar (c.toNat % 16)]
  else [c]

/-- JSON escape of a character list. -/
def escapeChars : List Char → List Char
  | [] => []
  | c :: cs => escChar c ++ escapeChars cs

/-- Decimal digits of a natural number, most significant first. -/
def natDigits (n : Nat) : List Char :=
  if h : n < 10 then [Char.ofNat (48 + n)]
  else natDigits (n / 10) ++ [Char.ofNat (48 + n % 10)]
decreasing_by exact Nat.div_lt_self (by omega) (by omega)

/-- Decimal rendering of an integer, as the Python `json` module prints it. -/
def intChars (n : Int) : List Char :=
  if n < 0 then '-' :: natDigits ((-n).toNat) else natDigits n.toNat

mutual

/-- Compact JSON rendering of a value (character list). -/
def printChars : JValue → List Char
  | .jnull => ['n', 'u', 'l', 'l']
  | .jbool true => ['t', 'r', 'u', 'e']
  | .jbool false => ['f', 'a', 'l', 's', 'e']
  | .jnum n => intChars n
  | .jstr s => '"' :: (escapeChars s.data ++ ['"'])
  | .jarr xs => '[' :: (printItems xs ++ [']'])
  | .jobj kvs => '{' :: (printMembers kvs ++ ['}'])

/-- Comma-separated rendering of array items. -/
def printItems : List JValue → List Char
  | [] => []
  | [x] => printChars x
  | x :: y :: rest => printChars x ++ ',' :: printItems (y :: rest)

/-- Comma-separated rendering of object members (`"key":value`). -/
def printMembers : List (String × JValue) → List Char
  | [] => []
  | [(k, v)] => '"' :: (escapeChars k.data ++ '"' :: ':' :: printChars v)
  | (k, v) :: m :: rest =>
      ('"' :: (escapeChars k.data ++ '"' :: ':' :: printChars v)) ++ ',' :: printMembers (m :: rest)

end

/-- Compact JSON rendering of a value, as a string. -/
def printJ (v : JValue) : String := String.mk (printChars v)

/-! ## JSON parsing (the stdlib `json.JSONDecoder().raw_decode`: parse one
value starting at the beginning of the text, return it with the unconsumed
rest) -/

/-- JSON whitespace (the characters the decoder skips between tokens). -/
def isWsChar (c : Char) : Bool :=
  c = ' ' || c = '\t' || c = '\n' || c = '\r'

/-- Skip JSON whitespace. -/
def skipWs : List Char → List Char
  | [] => []
  | c :: cs => if isWsChar c then skipWs cs else c :: cs

/-- Value of a hex digit character, if it is one. -/
def hexVal : Char → Option Nat
  | c =>
    if 48 ≤ c.toNat ∧ c.toNat ≤ 57 then some (c.toNat - 48)
    else if 97 ≤ c.toNat ∧ c.toNat ≤ 102 then some (c.toNat - 87)
    else if 65 ≤ c.toNat ∧ c.toNat ≤ 70 then some (c.toNat - 55)
    else none

/-- The character a short escape `\e` names, if `e` is a short escape. -/
def shortEscape (e : Char) : Option Char :=
  if e = '"' then some '"'
  else if e = '\\' then some '\\'
  else if e = '/' then some '/'
  else if e = 'b' then some '\x08'
  else if e = 'f' then some '\x0c'
  else if e = 'n' then some '\n'
  else if e = 'r' then some '\r'
  else if e = 't' then some '\t'
  else none

/-- Scan the body of a JSON string after the opening quote, handling the
standard escapes; stops after the closing quote.  Raw control characters are
rejected (the decoder is strict), as are `\u` escapes naming surrogate
halves (the embedding does not model surrogate-pair recombination). -/
def scanString : List Char → Option (List Char × List Char)
  | [] => none
  | c :: rest =>
    if c = '"' then some ([], rest)
    else if c = '\\' then
      match rest with
      | [] => none
      | e :: rest' =>
        if e = 'u' then
          match rest' with
          | a :: b :: cc :: d :: rest'' =>
            (match hexVal a, hexVal b, hexVal cc, hexVal d with
             | some x, some y, some z, some w =>
               let n := ((x * 16 + y) * 16 + z) * 16 + w
               if n < 0xd800 then
                 match scanString rest'' with
                 | some (cs, r) => some (Char.ofNat n :: cs, r)
                 | none => none
               else none
             | _, _, _, _ => none)
          | _ => none
        else
          match shortEscape e with
          | some c' =>
            (match scanString rest' with
             | some (cs, r) => some (c' :: cs, r)
             | none => none)
          | none => none
    else if c.toNat < 32 then none
    else
      match scanString rest with
      | some (cs, r) => some (c :: cs, r)
      | none => none

/-- Is a decimal digit character. -/
def isDigitChar (c : Char) : Bool := 48 ≤ c.toNat && c.toNat ≤ 57

/-- Greedily scan a run of decimal digits, returning its value. -/
def scanDigits (acc : Nat) : List Char → Nat × List Char
  | [] => (acc, [])
  | c :: cs =>
    if isDigitChar c then scanDigits (acc * 10 + (c.toNat - 48)) cs
    else (acc, c :: cs)

/-- Scan a digit run and require that it is not followed by a character that
would continue a float literal (`.`, `e`, `E`), which the embedding does not
model and rejects. -/
def scanIntTail (neg : Bool) (ys : List Char) : Option (Int × List Char) :=
  let p := scanDigits 0 ys
  match p.2 with
  | d :: _ =>
    if d = '.' ∨ d = 'e' ∨ d = 'E' then none
    else some (if neg then -(p.1 : Int) else (p.1 : Int), p.2)
  | [] => some (if neg then -(p.1 : Int) else (p.1 : Int), p.2)

/-- Scan a JSON number (integer form only, see `scanIntTail`). -/
def scanNumber (xs : List Char) : Option (Int × List Char) :=
  match xs with
  | [] => none
  | c :: rest =>
    if c = '-' then
      match rest with
      | [] => none
      | d :: _ => if isDigitChar d then scanIntTail true rest else none
    else if isDigitChar c then scanIntTail false xs
    else none

mutual

/-- Parse one JSON value at the head of the input (fuel-indexed; the fuel
only needs to exceed the input length). -/
def parseValue : Nat → List Char → Option (JValue × List Char)
  | 0, _ => none
  | fuel + 1, xs =>
    match xs with
    | [] => none
    | c :: rest =>
      if c = '{' then
        match skipWs rest with
        | [] => none
        | d :: rest' =>
          if d = '}' then some (.jobj [], rest')
          else
            match parseMembers fuel (d :: rest') with
            | some (kvs, r) => some (.jobj (pyDictOfPairs kvs), r)
            | none => none
      else if c = '[' then
        match skipWs rest with
        | [] => none
        | d :: rest' =>
          if d = ']' then some (.jarr [], rest')
          else
            match parseItems fuel (d :: rest') with
            | some (vs, r) => some (.jarr vs, r)
            | none => none
      else if c = '"' then
        match scanString rest with
        | some (cs, r) => some (.jstr (String.mk cs), r)
        | none => none
      else if c = 't' then
        match rest with
        | 'r' :: 'u' :: 'e' :: r => some (.jbool true, r)
        | _ => none
      else if c = 'f' then
        match rest with
        | 'a' :: 'l' :: 's' :: 'e' :: r => some (.jbool false, r)
        | _ => none
      else if c = 'n' then
        match rest with
        | 'u' :: 'l' :: 'l' :: r => some (.jnull, r)
        | _ => none
      else if c = '-' ∨ isDigitChar c = true then
        match scanNumber (c :: rest) with
        | some (n, r) => some (.jnum n, r)
        | none => none
      else none

/-- Parse the members of an object after the opening brace (at least one
member; the empty object is handled by the caller). -/
def parseMembers : Nat → List Char → Option (List (String × JValue) × List Char)
  | 0, _ => none
  | fuel + 1, xs =>
    match xs with
    | '"' :: rest =>
      (match scanString rest with
       | some (key, r1) =>
         (match skipWs r1 with
          | ':' :: r2 =>
            (match parseValue fuel (skipWs r2) with
             | some (v, r3) =>
               (match skipWs r3 with
                | ',' :: r4 =>
                  (match parseMembers fuel (skipWs r4) with
                   | some (kvs, r) => some ((String.mk key, v) :: kvs, r)
                   | none => none)
                | '}' :: r4 => some ([(String.mk key, v)], r4)
                | _ => none)
             | none => none)
          | _ => none)
       | none => none)
    | _ => none

/-- Parse the items of an array after the opening bracket (at least one
item; the empty array is handled by the caller). -/
def parseItems : Nat → List Char → Option (List JValue × List Char)
  | 0, _ => none
  | fuel + 1, xs =>
    match parseValue fuel xs with
    | some (v, r1) =>
      (match skipWs r1 with
       | ',' :: r2 =>
         (match parseItems fuel (skipWs r2) with
          | some (vs, r) => some (v :: vs, r)
          | none => none)
       | ']' :: r2 => some ([v], r2)
       | _ => none)
    | none => none

end

/-- `json.JSONDecoder().raw_decode(s)`: decode the first JSON value starting
at the very beginning of `s` (no leading skip), returning the value and the
unconsumed rest of the text; `none` models the `JSONDecodeError`. -/
def rawDecode (s : String) : Option (JValue × List Char) :=
  parseValue (s.length + 1) s.data

/-! ## Well-formed values (what a Python dict can actually hold: no repeated
keys in any object) -/

/-- `k` does not occur among the keys of the association list. -/
def keyNotIn (k : String) : List (String × JValue) → Bool
  | [] => true
  | (k', _) :: rest => !(k' == k) && keyNotIn k rest

/-- No key occurs twice. -/
def noDupKeys : List (String × JValue) → Bool
  | [] => true
  | (k, _) :: rest => keyNotIn k rest && noDupKeys rest

mutual

/-- A value every object of which has pairwise distinct keys: exactly the
values that arise from Python dicts. -/
def wfJ : JValue → Bool
  | .jnull => true
  | .jbool _ => true
  | .jnum _ => true
  | .jstr _ => true
  | .jarr xs => wfArr xs
  | .jobj kvs => noDupKeys kvs && wfFields kvs

/-- All items well-formed. -/
def wfArr : List JValue → Bool
  | [] => true
  | x :: xs => wfJ x && wfArr xs

/-- All member values well-formed. -/
def wfFields : List (String × JValue) → Bool
  | [] => true
  | (_, v) :: rest => wfJ v && wfFields rest

end

theorem pyDictInsert_fresh (acc : List (String × JValue)) (k : String) (v : JValue)
    (h : keyNotIn k acc = true) : pyDictInsert acc (k, v) = acc ++ [(k, v)] := by
  induction acc with
  | nil => rfl
  | cons p rest ih =>
    obtain ⟨k', v'⟩ := p
    simp only [keyNotIn, Bool.and_eq_true, Bool.not_eq_true', beq_eq_false_iff_ne] at h
    simp only [pyDictInsert, if_neg h.1, List.cons_append, List.cons.injEq, true_and]
    exact ih h.2

theorem keyNotIn_append {k : String} {a b : List (String × JValue)} :
    keyNotIn k (a ++ b) = (keyNotIn k a && keyNotIn k b) := by
  induction a with
  | nil => simp [keyNotIn]
  | cons p rest ih => obtain ⟨k', v'⟩ := p; simp [keyNotIn, ih, Bool.and_assoc]

theorem noDup_split (k : String) (v : JValue) (rest : List (String × JValue)) :
    ∀ l, noDupKeys (l ++ (k, v) :: rest) = true →
      keyNotIn k l = true ∧ noDupKeys l = true := by
  intro l
  induction l with
  | nil => intro _; exact ⟨rfl, rfl⟩
  | cons q l' ihl =>
    obtain ⟨k', v'⟩ := q
    intro hh
    rw [List.cons_append] at hh
    simp only [noDupKeys, Bool.and_eq_true] at hh
    obtain ⟨hnot, hrest⟩ := hh
    rw [keyNotIn_append] at hnot
    simp only [Bool.and_eq_true] at hnot
    obtain ⟨hl', hkrest⟩ := hnot
    have hkk' : ¬(k = k') := by
      simp only [keyNotIn, Bool.and_eq_true, Bool.not_eq_true', beq_eq_false_iff_ne] at hkrest
      exact hkrest.1
    obtain ⟨h1, h2⟩ := ihl hrest
    constructor
    · simp only [keyNotIn, Bool.and_eq_true, Bool.not_eq_true', beq_eq_false_iff_ne]
      exact ⟨fun h => hkk' h.symm, h1⟩
    · simp only [noDupKeys, Bool.and_eq_true]
      exact ⟨hl', h2⟩

theorem pyDict_foldl_fresh (kvs : List (String × JValue)) :
    ∀ acc, noDupKeys (acc ++ kvs) = true → kvs.foldl pyDictInsert acc = acc ++ kvs := by
  induction kvs with
  | nil => intro acc _; simp
  | cons p rest ih =>
    intro acc h
    obtain ⟨k, v⟩ := p
    obtain ⟨hk, hacc⟩ := noDup_split k v rest acc h
    simp only [List.foldl_cons, pyDictInsert_fresh acc k v hk]
    rw [ih (acc ++ [(k, v)]) (by simpa using h)]
    simp

/-- Building a Python dict from pairs with pairwise distinct keys keeps the
pairs unchanged. -/
theorem pyDictOfPairs_noDup {kvs : List (String × JValue)} (h : noDupKeys kvs = true) :
    pyDictOfPairs kvs = kvs := by
  simpa using pyDict_foldl_fresh kvs [] (by simpa using h)

/-! ## The printer output parses back (with arbitrary trailing bytes) -/

theorem string_mk_data (s : String) : String.mk s.data = s := by
  cases s
  rfl

theorem hexVal_hexDigitChar : ∀ d : Nat, d < 16 → hexVal (hexDigitChar d) = some d := by
  decide

theorem digitChar_facts : ∀ d : Nat, d < 10 →
    (Char.ofNat (48 + d)).toNat = 48 + d ∧
    isDigitChar (Char.ofNat (48 + d)) = true ∧
    isWsChar (Char.ofNat (48 + d)) = false ∧
    Char.ofNat (48 + d) ≠ '-' ∧
    Char.ofNat (48 + d) ≠ '"' ∧
    Char.ofNat (48 + d) ≠ '\\' ∧
    ¬ (Char.ofNat (48 + d)).toNat < 32 ∧
    Char.ofNat (48 + d) ≠ '{' ∧
    Char.ofNat (48 + d) ≠ '[' ∧
    Char.ofNat (48 + d) ≠ 't' ∧
    Char.ofNat (48 + d) ≠ 'f' ∧
    Char.ofNat (48 + d) ≠ 'n' ∧
    Char.ofNat (48 + d) ≠ '}' ∧
    Char.ofNat (48 + d) ≠ ']' := by
  decide

theorem natDigits_head (n : Nat) :
    ∃ d ds, natDigits n = Char.ofNat (48 + d) :: ds ∧ d < 10 := by
  induction n using Nat.strong_induction_on with
  | _ n ih =>
    rw [natDigits]
    split
    · next h => exact ⟨n, [], rfl, h⟩
    · next h =>
      obtain ⟨d, ds, heq, hd⟩ := ih (n / 10) (Nat.div_lt_self (by omega) (by omega))
      exact ⟨d, ds ++ [Char.ofNat (48 + n % 10)], by rw [heq]; simp, hd⟩

theorem scanDigits_stop (acc : Nat) (t : List Char)
    (h : t = [] ∨ ∃ c t', t = c :: t' ∧ isDigitChar c = false) :
    scanDigits acc t = (acc, t) := by
  rcases h with h | ⟨c, t', rfl, hc⟩
  · subst h; rfl
  · simp [scanDigits, hc]

theorem scanDigits_run (n : Nat) :
    ∀ acc t, scanDigits acc (natDigits n ++ t) =
      scanDigits (acc * 10 ^ (natDigits n).length + n) t := by
  induction n using Nat.strong_induction_on with
  | _ n ih =>
    intro acc t
    rw [natDigits]
    split
    · next h =>
      obtain ⟨_, hdig, -⟩ := digitChar_facts n h
      simp only [List.singleton_append, List.length_singleton, scanDigits, hdig, if_true,
        digitChar_facts n h |>.1, pow_one]
      congr 1
      omega
    · next h =>
      have hlt : n / 10 < n := Nat.div_lt_self (by omega) (by omega)
      obtain ⟨-, hdig, -⟩ := digitChar_facts (n % 10) (Nat.mod_lt _ (by omega))
      rw [List.append_assoc, List.singleton_append, ih (n / 10) hlt,
        scanDigits]
      simp only [hdig, if_true, digitChar_facts (n % 10) (Nat.mod_lt _ (by omega)) |>.1]
      rw [List.length_append, List.length_singleton, pow_add, pow_one]
      congr 1
      have h48 : 48 + n % 10 - 48 = n % 10 := by omega
      rw [h48]
      ring_nf
      omega

/-- What may follow a printed integer without extending it into a longer
number literal. -/
def numFollow : List Char → Prop
  | [] => True
  | c :: _ => isDigitChar c = false ∧ c ≠ '.' ∧ c ≠ 'e' ∧ c ≠ 'E'

theorem scanIntTail_natDigits (m : Nat) (neg : Bool) (t : List Char) (h : numFollow t) :
    scanIntTail neg (natDigits m ++ t) =
      some (if neg then -(m : Int) else (m : Int), t) := by
  unfold scanIntTail
  rw [scanDigits_run, scanDigits_stop _ _ (by
    cases t with
    | nil => exact Or.inl rfl
    | cons c t' => exact Or.inr ⟨c, t', rfl, h.1⟩)]
  simp only [Nat.zero_mul, Nat.zero_add]
  cases t with
  | nil => rfl
  | cons c t' =>
    obtain ⟨-, h2, h3, h4⟩ := h
    simp [h2, h3, h4]

theorem scanNumber_intChars (n : Int) (t : List Char) (h : numFollow t) :
    scanNumber (intChars n ++ t) = some (n, t) := by
  unfold intChars
  by_cases hn : n < 0
  · rw [if_pos hn]
    obtain ⟨d, ds, heq, hd⟩ := natDigits_head (-n).toNat
    have hdig := (digitChar_facts d hd).2.1
    rw [List.cons_append, heq, List.cons_append, scanNumber.eq_def]
    simp only [reduceIte, hdig, if_true]
    rw [← List.cons_append, ← heq, scanIntTail_natDigits _ _ _ h]
    have hval : -(((-n).toNat : Int)) = n := by omega
    rw [if_pos rfl, hval]
  · rw [if_neg hn]
    obtain ⟨d, ds, heq, hd⟩ := natDigits_head n.toNat
    have hdig := (digitChar_facts d hd).2.1
    have hnm := (digitChar_facts d hd).2.2.2.1
    rw [heq, List.cons_append, scanNumber.eq_def]
    simp only [hnm, if_false, hdig, if_true, reduceIte]
    rw [← List.cons_append, ← heq, scanIntTail_natDigits _ _ _ h]
    have hval : ((n.toNat : Int)) = n := by omega
    rw [if_neg (by decide), hval]

theorem scanString_escape (cs : List Char) :
    ∀ t, scanString (escapeChars cs ++ '"' :: t) = some (cs, t) := by
  induction cs with
  | nil =>
    intro t
    show scanString (escapeChars [] ++ '"' :: t) = some ([], t)
    rw [show escapeChars [] ++ '"' :: t = '"' :: t by simp [escapeChars]]
    rw [scanString.eq_def]
    simp
  | cons c cs ih =>
    intro t
    show scanString ((escChar c ++ escapeChars cs) ++ '"' :: t) = some (c :: cs, t)
    rw [List.append_assoc]
    unfold escChar
    by_cases h1 : c = '"'
    · subst h1; rw [scanString.eq_def]; simp [shortEscape, ih]
    rw [if_neg h1]
    by_cases h2 : c = '\\'
    · subst h2; rw [scanString.eq_def]; simp [shortEscape, ih]
    rw [if_neg h2]
    by_cases h3 : c = '\x08'
    · subst h3; rw [scanString.eq_def]; simp [shortEscape, ih]
    rw [if_neg h3]
    by_cases h4 : c = '\x0c'
    · subst h4; rw [scanString.eq_def]; simp [shortEscape, ih]
    rw [if_neg h4]
    by_cases h5 : c = '\n'
    · subst h5; rw [scanString.eq_def]; simp [shortEscape, ih]
    rw [if_neg h5]
    by_cases h6 : c = '\r'
    · subst h6; rw [scanString.eq_def]; simp [shortEscape, ih]
    rw [if_neg h6]
    by_cases h7 : c = '\t'
    · subst h7; rw [scanString.eq_def]; simp [shortEscape, ih]
    rw [if_neg h7]
    by_cases h8 : c.toNat < 32
    · rw [if_pos h8]
      simp only [List.cons_append, List.nil_append]
      rw [scanString.eq_def]
      have e1 : hexVal '0' = some 0 := by decide
      have e2 : hexVal (hexDigitChar (c.toNat / 16)) = some (c.toNat / 16) :=
        hexVal_hexDigitChar _ (by omega)
      have e3 : hexVal (hexDigitChar (c.toNat % 16)) = some (c.toNat % 16) :=
        hexVal_hexDigitChar _ (Nat.mod_lt _ (by omega))
      have hn : ((0 * 16 + 0) * 16 + c.toNat / 16) * 16 + c.toNat % 16 = c.toNat := by
        omega
      have h55 : c.toNat < 55296 := by omega
      simp [e1, e2, e3, hn, h55, ih, Char.ofNat_toNat]
      have hx : c.toNat / 16 * 16 + c.toNat % 16 = c.toNat := by omega
      refine ⟨by omega, ?_⟩
      rw [hx, Char.ofNat_toNat]
    · rw [if_neg h8]
      simp only [List.cons_append, List.nil_append]
      rw [scanString.eq_def]
      simp only [if_neg h1, if_neg h2, if_neg h8, ih]

theorem skipWs_cons_not {c : Char} (h : isWsChar c = false) (l : List Char) :
    skipWs (c :: l) = c :: l := by
  simp [skipWs, h]

theorem printChars_head (v : JValue) :
    ∃ c r, printChars v = c :: r ∧ isWsChar c = false ∧ c ≠ '}' ∧ c ≠ ']' := by
  cases v with
  | jnull => exact ⟨'n', _, rfl, by decide, by decide, by decide⟩
  | jbool b => cases b <;> exact ⟨_, _, rfl, by decide, by decide, by decide⟩
  | jnum n =>
    show ∃ c r, intChars n = c :: r ∧ _
    unfold intChars
    by_cases hn : n < 0
    · rw [if_pos hn]
      exact ⟨'-', _, rfl, by decide, by decide, by decide⟩
    · rw [if_neg hn]
      obtain ⟨d, ds, heq, hd⟩ := natDigits_head n.toNat
      have hf := digitChar_facts d hd
      exact ⟨_, ds, heq, hf.2.2.1, hf.2.2.2.2.2.2.2.2.2.2.2.2.1,
        hf.2.2.2.2.2.2.2.2.2.2.2.2.2⟩
  | jstr s => exact ⟨'"', _, rfl, by decide, by decide, by decide⟩
  | jarr xs => exact ⟨'[', _, rfl, by decide, by decide, by decide⟩
  | jobj kvs => exact ⟨'{', _, rfl, by decide, by decide, by decide⟩

theorem printItems_expose (x : JValue) (xs : List JValue) :
    ∃ r, printItems (x :: xs) = printChars x ++ r := by
  cases xs with
  | nil => exact ⟨[], by simp [printItems]⟩
  | cons y ys => exact ⟨',' :: printItems (y :: ys), by simp [printItems]⟩

theorem printMembers_expose (p : String × JValue) (ps : List (String × JValue)) :
    ∃ r, printMembers (p :: ps) = '"' :: r := by
  obtain ⟨k, v⟩ := p
  cases ps with
  | nil => exact ⟨_, rfl⟩
  | cons q qs =>
    exact ⟨(escapeChars k.data ++ '"' :: ':' :: printChars v) ++ ',' :: printMembers (q :: qs),
      by simp [printMembers]⟩

/-- What may follow the printed form of the given value without changing how
the parser reads it (only a number can be extended by what follows it). -/
def printFollow : JValue → List Char → Prop
  | .jnum _, t => numFollow t
  | _, _ => True

theorem printFollow_cons (v : JValue) (c : Char) (t : List Char)
    (h1 : isDigitChar c = false) (h2 : c ≠ '.') (h3 : c ≠ 'e') (h4 : c ≠ 'E') :
    printFollow v (c :: t) := by
  cases v <;> trivial

mutual

/-- A printed value followed by any admissible trailing bytes parses back to
exactly that value, leaving the trailing bytes unconsumed. -/
theorem parse_printChars (v : JValue) :
    ∀ fuel t, wfJ v = true → (printChars v).length < fuel → printFollow v t →
      parseValue fuel (printChars v ++ t) = some (v, t) := by
  intro fuel t hwf hlen hfol
  cases fuel with
  | zero => omega
  | succ f =>
    cases v with
    | jnull =>
      rw [show printChars .jnull ++ t = 'n' :: 'u' :: 'l' :: 'l' :: t from by
        simp [printChars]]
      simp only [parseValue]
      simp
    | jbool b =>
      cases b with
      | true =>
        rw [show printChars (.jbool true) ++ t = 't' :: 'r' :: 'u' :: 'e' :: t from by
          simp [printChars]]
        simp only [parseValue]
        simp
      | false =>
        rw [show printChars (.jbool false) ++ t = 'f' :: 'a' :: 'l' :: 's' :: 'e' :: t from by
          simp [printChars]]
        simp only [parseValue]
        simp
    | jnum n =>
      have hfol' : numFollow t := hfol
      by_cases hn : n < 0
      · have hi : printChars (.jnum n) ++ t = '-' :: (natDigits (-n).toNat ++ t) := by
          simp [printChars, intChars, if_pos hn]
        have hs : scanNumber ('-' :: (natDigits (-n).toNat ++ t)) = some (n, t) := by
          rw [← List.cons_append,
            ← show intChars n = '-' :: natDigits (-n).toNat from by rw [intChars, if_pos hn]]
          exact scanNumber_intChars n t hfol'
        rw [hi]
        simp only [parseValue]
        simp [hs]
      · obtain ⟨d, ds, heq, hd⟩ := natDigits_head n.toNat
        obtain ⟨-, hdig, -, -, hq, -, -, hbr, hbk, ht, hf2, hn2, -, -⟩ :=
          digitChar_facts d hd
        have hi : printChars (.jnum n) ++ t = Char.ofNat (48 + d) :: (ds ++ t) := by
          simp [printChars, intChars, if_neg hn, heq]
        have hs : scanNumber (Char.ofNat (48 + d) :: (ds ++ t)) = some (n, t) := by
          rw [← List.cons_append, ← heq,
            ← show intChars n = natDigits n.toNat from by rw [intChars, if_neg hn]]
          exact scanNumber_intChars n t hfol'
        rw [hi]
        simp only [parseValue]
        rw [if_neg hbr, if_neg hbk, if_neg hq, if_neg ht, if_neg hf2, if_neg hn2,
          if_pos (Or.inr hdig)]
        simp [hs]
    | jstr s =>
      have hi : printChars (.jstr s) ++ t = '"' :: (escapeChars s.data ++ '"' :: t) := by
        simp [printChars]
      rw [hi]
      simp only [parseValue]
      simp [scanString_escape s.data t, string_mk_data]
    | jarr xs =>
      cases xs with
      | nil =>
        rw [show printChars (.jarr []) ++ t = '[' :: ']' :: t from by
          simp [printChars, printItems]]
        simp only [parseValue]
        rw [skipWs_cons_not (show isWsChar ']' = false by decide)]
        simp
      | cons x xs' =>
        have hwf' : wfArr (x :: xs') = true := hwf
        have hi : printChars (.jarr (x :: xs')) ++ t =
            '[' :: (printItems (x :: xs') ++ ']' :: t) := by
          simp [printChars]
        obtain ⟨rext, hext⟩ := printItems_expose x xs'
        obtain ⟨c0, r0, hpr, hnws, -, hnrbk⟩ := printChars_head x
        have hdec : printItems (x :: xs') ++ ']' :: t = c0 :: (r0 ++ (rext ++ ']' :: t)) := by
          rw [hext, hpr]
          simp
        have hlen' : (printItems (x :: xs')).length + 1 < f := by
          simp only [printChars, List.length_cons, List.length_append,
            List.length_singleton] at hlen
          omega
        have hitems := parse_printItems (x :: xs') f t (by simp) hwf' hlen'
        rw [hdec] at hitems
        rw [hi]
        simp only [parseValue, if_true]
        simp only [hdec]
        rw [skipWs_cons_not hnws]
        simp [hnrbk, hitems]
    | jobj kvs =>
      cases kvs with
      | nil =>
        rw [show printChars (.jobj []) ++ t = '{' :: '}' :: t from by
          simp [printChars, printMembers]]
        simp only [parseValue]
        rw [skipWs_cons_not (show isWsChar '}' = false by decide)]
        simp
      | cons p ps =>
        have hwf' : (noDupKeys (p :: ps) && wfFields (p :: ps)) = true := hwf
        simp only [Bool.and_eq_true] at hwf'
        have hi : printChars (.jobj (p :: ps)) ++ t =
            '{' :: (printMembers (p :: ps) ++ '}' :: t) := by
          simp [printChars]
        obtain ⟨rext, hext⟩ := printMembers_expose p ps
        have hdec : printMembers (p :: ps) ++ '}' :: t = '"' :: (rext ++ '}' :: t) := by
          rw [hext]
          simp
        have hlen' : (printMembers (p :: ps)).length < f := by
          simp only [printChars, List.length_cons, List.length_append,
            List.length_singleton] at hlen
          omega
        have hmem := parse_printMembers (p :: ps) f t (by simp) hwf'.2 hlen'
        rw [hdec] at hmem
        rw [hi]
        simp only [parseValue, if_true]
        simp only [hdec]
        rw [skipWs_cons_not (show isWsChar '"' = false by decide)]
        simp [hmem, pyDictOfPairs_noDup hwf'.1]

/-- Printed object members followed by a closing brace and trailing bytes
parse back to exactly those members. -/
theorem parse_printMembers (kvs : List (String × JValue)) :
    ∀ fuel t, kvs ≠ [] → wfFields kvs = true → (printMembers kvs).length < fuel →
      parseMembers fuel (printMembers kvs ++ '}' :: t) = some (kvs, t) := by
  intro fuel t hne hwf hlen
  cases fuel with
  | zero => omega
  | succ f =>
    cases kvs with
    | nil => exact absurd rfl hne
    | cons p ps =>
      obtain ⟨k, v⟩ := p
      have hwf2 : (wfJ v && wfFields ps) = true := hwf
      simp only [Bool.and_eq_true] at hwf2
      obtain ⟨c0, r0, hpr, hnws, hnrb, -⟩ := printChars_head v
      cases ps with
      | nil =>
        have hi : printMembers [(k, v)] ++ '}' :: t =
            '"' :: (escapeChars k.data ++ '"' :: ':' :: (printChars v ++ '}' :: t)) := by
          simp [printMembers]
        have hlenv : (printChars v).length < f := by
          simp only [printMembers, List.length_cons, List.length_append] at hlen
          omega
        have hval := parse_printChars v f ('}' :: t) hwf2.1 hlenv
          (printFollow_cons v '}' t (by decide) (by decide) (by decide) (by decide))
        have hdec : printChars v ++ '}' :: t = c0 :: (r0 ++ '}' :: t) := by
          rw [hpr]
          simp
        rw [hdec] at hval
        rw [hi]
        simp only [parseMembers]
        simp only [scanString_escape k.data, string_mk_data,
          skipWs_cons_not (show isWsChar ':' = false by decide), hdec,
          skipWs_cons_not hnws, hval,
          skipWs_cons_not (show isWsChar '}' = false by decide)]
      | cons q qs =>
        have hi : printMembers ((k, v) :: q :: qs) ++ '}' :: t =
            '"' :: (escapeChars k.data ++ '"' :: ':' ::
              (printChars v ++ ',' :: (printMembers (q :: qs) ++ '}' :: t))) := by
          simp [printMembers]
        have hlenv : (printChars v).length < f := by
          simp only [printMembers, List.length_cons, List.length_append] at hlen
          omega
        have hlenq : (printMembers (q :: qs)).length < f := by
          simp only [printMembers, List.length_cons, List.length_append] at hlen
          omega
        have hval := parse_printChars v f (',' :: (printMembers (q :: qs) ++ '}' :: t))
          hwf2.1 hlenv
          (printFollow_cons v ',' _ (by decide) (by decide) (by decide) (by decide))
        have hdec : printChars v ++ ',' :: (printMembers (q :: qs) ++ '}' :: t) =
            c0 :: (r0 ++ ',' :: (printMembers (q :: qs) ++ '}' :: t)) := by
          rw [hpr]
          simp
        rw [hdec] at hval
        obtain ⟨rq, hqx⟩ := printMembers_expose q qs
        have hdecq : printMembers (q :: qs) ++ '}' :: t = '"' :: (rq ++ '}' :: t) := by
          rw [hqx]
          simp
        rw [hdecq] at hdec hval
        have hrec := parse_printMembers (q :: qs) f t (by simp) hwf2.2 hlenq
        rw [hdecq] at hrec
        rw [hi]
        simp only [parseMembers]
        simp only [scanString_escape k.data, string_mk_data,
          skipWs_cons_not (show isWsChar ':' = false by decide), hdec,
          skipWs_cons_not hnws, hval,
          skipWs_cons_not (show isWsChar ',' = false by decide), hdecq,
          skipWs_cons_not (show isWsChar '"' = false by decide), hrec]

/-- Printed array items followed by a closing bracket and trailing bytes
parse back to exactly those items. -/
theorem parse_printItems (xs : List JValue) :
    ∀ fuel t, xs ≠ [] → wfArr xs = true → (printItems xs).length + 1 < fuel →
      parseItems fuel (printItems xs ++ ']' :: t) = some (xs, t) := by
  intro fuel t hne hwf hlen
  cases fuel with
  | zero => omega
  | succ f =>
    cases xs with
    | nil => exact absurd rfl hne
    | cons x xs' =>
      have hwf2 : (wfJ x && wfArr xs') = true := hwf
      simp only [Bool.and_eq_true] at hwf2
      obtain ⟨c0, r0, hpr, hnws, -, -⟩ := printChars_head x
      cases xs' with
      | nil =>
        have hi : printItems [x] ++ ']' :: t = printChars x ++ ']' :: t := by
          simp [printItems]
        have hlenx : (printChars x).length < f := by
          simp only [printItems] at hlen
          omega
        have hval := parse_printChars x f (']' :: t) hwf2.1 hlenx
          (printFollow_cons x ']' t (by decide) (by decide) (by decide) (by decide))
        have hdec : printChars x ++ ']' :: t = c0 :: (r0 ++ ']' :: t) := by
          rw [hpr]
          simp
        rw [hdec] at hval
        rw [hi]
        simp only [parseItems]
        simp only [hdec, hval, skipWs_cons_not (show isWsChar ']' = false by decide)]
      | cons y ys =>
        have hi : printItems (x :: y :: ys) ++ ']' :: t =
            printChars x ++ ',' :: (printItems (y :: ys) ++ ']' :: t) := by
          simp [printItems]
        have hlenx : (printChars x).length < f := by
          simp only [printItems, List.length_cons, List.length_append] at hlen
          omega
        have hlenys : (printItems (y :: ys)).length + 1 < f := by
          have hx1 : (printChars x).length = r0.length + 1 := by
            rw [hpr]
            simp
          simp only [printItems, List.length_cons, List.length_append] at hlen
          omega
        have hval := parse_printChars x f (',' :: (printItems (y :: ys) ++ ']' :: t))
          hwf2.1 hlenx
          (printFollow_cons x ',' _ (by decide) (by decide) (by decide) (by decide))
        have hdec : printChars x ++ ',' :: (printItems (y :: ys) ++ ']' :: t) =
            c0 :: (r0 ++ ',' :: (printItems (y :: ys) ++ ']' :: t)) := by
          rw [hpr]
          simp
        rw [hdec] at hval
        obtain ⟨ry, hy⟩ := printItems_expose y ys
        obtain ⟨cy, ry0, hpy, hnwsy, -, -⟩ := printChars_head y
        have hdecy : printItems (y :: ys) ++ ']' :: t = cy :: (ry0 ++ (ry ++ ']' :: t)) := by
          rw [hy, hpy]
          simp
        rw [hdecy] at hdec hval
        have hrec := parse_printItems (y :: ys) f t (by simp) hwf2.2 hlenys
        rw [hdecy] at hrec
        rw [hi]
        simp only [parseItems]
        simp only [hdec, hval, skipWs_cons_not (show isWsChar ',' = false by decide),
          hdecy, skipWs_cons_not hnwsy, hrec]

end


/-! ## Top-level facts about `rawDecode` on printed values -/

theorem printFollow_nil (v : JValue) : printFollow v [] := by
  cases v <;> trivial

theorem rawDecode_print (v : JValue) (hwf : wfJ v = true) :
    rawDecode (printJ v) = some (v, []) := by
  unfold rawDecode printJ
  have h := parse_printChars v ((printChars v).length + 1) [] hwf (by omega)
    (printFollow_nil v)
  simpa using h

/-- A printed object parses back unchanged from a stream that continues with
arbitrary further bytes: `raw_decode` stops at the closing brace. -/
theorem rawDecode_obj_trailing (kvs : List (String × JValue))
    (hwf : wfJ (.jobj kvs) = true) (t : List Char) :
    rawDecode (String.mk (printChars (.jobj kvs) ++ t)) = some (.jobj kvs, t) := by
  unfold rawDecode
  have hfuel : (printChars (.jobj kvs)).length <
      (String.mk (printChars (.jobj kvs) ++ t)).length + 1 := by
    have : (String.mk (printChars (.jobj kvs) ++ t)).length =
        (printChars (.jobj kvs)).length + t.length := by
      simp [String.length]
    omega
  exact parse_printChars (.jobj kvs) _ t hwf hfuel trivial

/-! ## The protocol data model (`src/bridge/protocol.py`) -/

/-- `StatusType` (`protocol.py`): the closed set of response statuses. -/
inductive StatusType where
  | success
  | error
  | warning
  | info
deriving DecidableEq

/-- The wire string of a status. -/
def StatusType.toWire : StatusType → String
  | .success => "success"
  | .error => "error"
  | .warning => "warning"
  | .info => "info"

/-- Parsing a wire string into a status (`StatusType(value)`). -/
def statusOfWire (s : String) : Option StatusType :=
  if s = "success" then some .success
  else if s = "error" then some .error
  else if s = "warning" then some .warning
  else if s = "info" then some .info
  else none

theorem statusOfWire_toWire (st : StatusType) : statusOfWire st.toWire = some st := by
  cases st <;> rfl

/-- `ActionType` (`protocol.py`): the closed set of backend actions. -/
inductive ActionType where
  | install
  | remove
  | update
  | search
  | info
  | listInstalled
  | listExplicit
  | cleanCache
  | removeOrphans
  | checkBroken
  | updateSystem
  | fontInstall
  | fontRemove
  | fontList
  | fontSearch
  | fontUpdateCache
  | downgrade
  | viewLogs
  | mirrorManagement
  | installYay
  | checkUpdates
  | getInfo
  | validate
deriving DecidableEq

/-- The wire string of an action. -/
def ActionType.toWire : ActionType → String
  | .install => "install"
  | .remove => "remove"
  | .update => "update"
  | .search => "search"
  | .info => "info"
  | .listInstalled => "list_installed"
  | .listExplicit => "list_explicit"
  | .cleanCache => "clean_cache"
  | .removeOrphans => "remove_orphans"
  | .checkBroken => "check_broken"
  | .updateSystem => "update_system"
  | .fontInstall => "font_install"
  | .fontRemove => "font_remove"
  | .fontList => "font_list"
  | .fontSearch => "font_search"
  | .fontUpdateCache => "font_update_cache"
  | .downgrade => "downgrade"
  | .viewLogs => "view_logs"
  | .mirrorManagement => "mirror_management"
  | .installYay => "install_yay"
  | .checkUpdates => "check_updates"
  | .getInfo => "get_info"
  | .validate => "validate"

/-- Parsing a wire string into an action (`ActionType(value)`). -/
def actionOfWire (s : String) : Option ActionType :=
  if s = "install" then some .install
  else if s = "remove" then some .remove
  else if s = "update" then some .update
  else if s = "search" then some .search
  else if s = "info" then some .info
  else if s = "list_installed" then some .listInstalled
  else if s = "list_explicit" then some .listExplicit
  else if s = "clean_cache" then some .cleanCache
  else if s = "remove_orphans" then some .removeOrphans
  else if s = "check_broken" then some .checkBroken
  else if s = "update_system" then some .updateSystem
  else if s = "font_install" then some .fontInstall
  else if s = "font_remove" then some .fontRemove
  else if s = "font_list" then some .fontList
  else if s = "font_search" then some .fontSearch
  else if s = "font_update_cache" then some .fontUpdateCache
  else if s = "downgrade" then some .downgrade
  else if s = "view_logs" then some .viewLogs
  else if s = "mirror_management" then some .mirrorManagement
  else if s = "install_yay" then some .installYay
  else if s = "check_updates" then some .checkUpdates
  else if s = "get_info" then some .getInfo
  else if s = "validate" then some .validate
  else none

theorem actionOfWire_toWire (a : ActionType) : actionOfWire a.toWire = some a := by
  cases a <;> rfl

/-- `Request` (`protocol.py`): action, params mapping, metadata mapping
(params and metadata default to empty mappings and are never `None`). -/
structure Request where
  action : ActionType
  params : List (String × JValue)
  metadata : List (String × JValue)

/-- `Request.to_json` = `model_dump_json(exclude_none=True)`: the JSON object
in field order; `params` and `metadata` are always present (a mapping, even
empty, is not `None`). -/
def Request.toWireJson (r : Request) : JValue :=
  .jobj [("action", .jstr r.action.toWire), ("params", .jobj r.params),
    ("metadata", .jobj r.metadata)]

/-- `Protocol.encode` on a request (`Request.to_json`). -/
def encodeRequest (r : Request) : String := printJ r.toWireJson

/-- Field decoding for a non-optional mapping field with an empty-dict
default (`params`, `metadata`): absent means the default, a JSON object means
itself, anything else (including `null`) is a validation error. -/
def decodeMapField : Option JValue → Option (List (String × JValue))
  | none => some []
  | some (.jobj m) => some m
  | some _ => none

/-- `Request.from_json` = `model_validate_json`: requires an object with a
recognized `action` string; extra keys are ignored (pydantic default). -/
def requestOfJson (v : JValue) : Option Request :=
  match v with
  | .jobj kvs =>
    (match listGet kvs ("action") with
     | some (.jstr a) =>
       (match actionOfWire a with
        | some act =>
          (match decodeMapField (listGet kvs ("params")) with
           | some ps =>
             (match decodeMapField (listGet kvs ("metadata")) with
              | some md => some ⟨act, ps, md⟩
              | none => none)
           | none => none)
        | none => none)
     | _ => none)
  | _ => none

/-- `Protocol.decode(text, response=False)`: parse one JSON text into a
Request; the whole text must be consumed (up to whitespace). -/
def decodeRequest (s : String) : Option Request :=
  match rawDecode s with
  | some (v, rest) => if skipWs rest = [] then requestOfJson v else none
  | none => none

/-- A UTC wall-clock instant as `datetime.now(timezone.utc)` observes it. -/
structure DateTimeUTC where
  year : Nat
  month : Nat
  day : Nat
  hour : Nat
  minute : Nat
  second : Nat
  microsecond : Nat
deriving DecidableEq

/-- A number rendered with leading zeros to the given width. -/
def padNum (w n : Nat) : String :=
  let d := String.mk (natDigits n)
  if d.length < w then String.mk (List.replicate (w - d.length) '0') ++ d else d

/-- The date-and-time part of `datetime.isoformat()` up to whole seconds. -/
def isoformatBase (dt : DateTimeUTC) : String :=
  padNum 4 dt.year ++ "-" ++ padNum 2 dt.month ++ "-" ++ padNum 2 dt.day ++ "T" ++
  padNum 2 dt.hour ++ ":" ++ padNum 2 dt.minute ++ ":" ++ padNum 2 dt.second

/-- The offset-free part of `datetime.isoformat()`: date, `T`, time, and the
`.ffffff` fraction exactly when the microsecond component is nonzero. -/
def isoformatCore (dt : DateTimeUTC) : String :=
  isoformatBase dt ++
    (if dt.microsecond = 0 then ("") else (".") ++ padNum 6 dt.microsecond)

/-- `datetime.now(timezone.utc).isoformat()`: core followed by the UTC
offset `+00:00`. -/
def isoformatUTC (dt : DateTimeUTC) : String := isoformatCore dt ++ "+00:00"

/-- The timestamp the validator generates:
`isoformat().replace("+00:00", "Z")`.  The core contains no `+`, so the
replacement rewrites exactly the final offset into `Z`. -/
def genTimestamp (dt : DateTimeUTC) : String := isoformatCore dt ++ "Z"

/-- `Response` (`protocol.py`). -/
structure Response where
  status : StatusType
  data : Option (List (String × JValue))
  error : Option (List (String × JValue))
  message : Option String
  timestamp : Option String
  metadata : List (String × JValue)

/-- `Response(**kwargs)` under pydantic v2 semantics: the `timestamp`
before-validator runs only when the argument is supplied (pydantic does not
validate default values), so an omitted timestamp stays absent while an
explicit `None` is auto-filled from the clock.  `tsArg = none` models an
omitted argument, `tsArg = some none` an explicit `timestamp=None`, and
`tsArg = some (some s)` an explicit string. -/
def mkResponse (now : DateTimeUTC) (status : StatusType)
    (data error : Option (List (String × JValue))) (message : Option String)
    (tsArg : Option (Option String)) (metadata : List (String × JValue)) : Response :=
  ⟨status, data, error, message,
    (match tsArg with
     | none => none
     | some none => some (genTimestamp now)
     | some (some s) => some s),
    metadata⟩

/-- `Response.to_json` = `model_dump_json(exclude_none=True)`: fields in
declaration order, `None`-valued optionals dropped, `metadata` always
present. -/
def Response.toWireJson (r : Response) : JValue :=
  .jobj ([("status", .jstr r.status.toWire)]
    ++ (match r.data with | some d => [("data", JValue.jobj d)] | none => [])
    ++ (match r.error with | some e => [("error", JValue.jobj e)] | none => [])
    ++ (match r.message with | some m => [("message", JValue.jstr m)] | none => [])
    ++ (match r.timestamp with | some ts => [("timestamp", JValue.jstr ts)] | none => [])
    ++ [("metadata", .jobj r.metadata)])

/-- `Protocol.encode` on a response (`Response.to_json`). -/
def encodeResponse (r : Response) : String := printJ r.toWireJson

/-- Field decoding for an `Optional[dict]` field (`data`, `error`): absent
and `null` both give `None`; an object gives itself; anything else fails. -/
def decodeOptObj : Option JValue → Option (Option (List (String × JValue)))
  | none => some none
  | some .jnull => some none
  | some (.jobj d) => some (some d)
  | some _ => none

/-- Field decoding for an `Optional[str]` field (`message`). -/
def decodeOptStr : Option JValue → Option (Option String)
  | none => some none
  | some .jnull => some none
  | some (.jstr m) => some (some m)
  | some _ => none

/-- Field decoding for `timestamp`: absent stays absent (the validator does
not run on the default), an explicit `null` is filled from the clock by the
before-validator, a string stays itself. -/
def decodeTimestamp (now : DateTimeUTC) : Option JValue → Option (Option String)
  | none => some none
  | some .jnull => some (some (genTimestamp now))
  | some (.jstr ts) => some (some ts)
  | some _ => none

/-- Validation of a parsed JSON value as a `Response` (shared by
`model_validate_json` and by `Response(**dict)` in the Caller). -/
def responseOfJson (now : DateTimeUTC) (v : JValue) : Option Response :=
  match v with
  | .jobj kvs =>
    (match listGet kvs ("status") with
     | some (.jstr s) =>
       (match statusOfWire s with
        | some st =>
          (match decodeOptObj (listGet kvs ("data")) with
           | some d =>
             (match decodeOptObj (listGet kvs ("error")) with
              | some e =>
                (match decodeOptStr (listGet kvs ("message")) with
                 | some m =>
                   (match decodeTimestamp now (listGet kvs ("timestamp")) with
                    | some ts =>
                      (match decodeMapField (listGet kvs ("metadata")) with
                       | some md => some ⟨st, d, e, m, ts, md⟩
                       | none => none)
                    | none => none)
                 | none => none)
              | none => none)
           | none => none)
        | none => none)
     | _ => none)
  | _ => none

/-- `Protocol.decode(text, response=True)`: parse one JSON text into a
Response; the whole text must be consumed (up to whitespace). -/
def decodeResponse (now : DateTimeUTC) (s : String) : Option Response :=
  match rawDecode s with
  | some (v, rest) => if skipWs rest = [] then responseOfJson now v else none
  | none => none

/-- A protocol message: what `Protocol.encode`/`Protocol.decode` carry. -/
inductive Message where
  | req : Request → Message
  | resp : Response → Message

/-- `Protocol.encode(obj)`. -/
def protocolEncode : Message → String
  | .req r => encodeRequest r
  | .resp r => encodeResponse r

/-- `Protocol.decode(json_str, response)`. -/
def protocolDecode (response : Bool) (now : DateTimeUTC) (s : String) : Option Message :=
  if response then (decodeResponse now s).map .resp
  else (decodeRequest s).map .req



/-! ## Round-trip of the wire encoding (`decode(encode(x))`) -/

/-- An association list a Python dict can hold: distinct keys, well-formed
values. -/
def wfDict (kvs : List (String × JValue)) : Bool :=
  noDupKeys kvs && wfFields kvs

/-- Dict well-formedness lifted over an optional field. -/
def wfOptDict : Option (List (String × JValue)) → Bool
  | none => true
  | some kvs => wfDict kvs

theorem request_toWireJson_wf (r : Request) (hp : wfDict r.params = true)
    (hm : wfDict r.metadata = true) : wfJ r.toWireJson = true := by
  obtain ⟨a, ps, md⟩ := r
  simp only [wfDict, Bool.and_eq_true] at hp hm
  simp [Request.toWireJson, wfJ, noDupKeys, keyNotIn, wfFields, hp.1, hp.2, hm.1, hm.2]

theorem requestOfJson_toWireJson (r : Request) :
    requestOfJson r.toWireJson = some r := by
  obtain ⟨a, ps, md⟩ := r
  simp [Request.toWireJson, requestOfJson, listGet, actionOfWire_toWire, decodeMapField]

/-- `Protocol.decode (Protocol.encode req, response=False)` returns the
request unchanged. -/
theorem decodeRequest_encodeRequest (r : Request) (hp : wfDict r.params = true)
    (hm : wfDict r.metadata = true) :
    decodeRequest (encodeRequest r) = some r := by
  unfold decodeRequest encodeRequest
  rw [rawDecode_print _ (request_toWireJson_wf r hp hm)]
  simp [requestOfJson_toWireJson, skipWs]

theorem response_toWireJson_wf (r : Response) (hd : wfOptDict r.data = true)
    (he : wfOptDict r.error = true) (hm : wfDict r.metadata = true) :
    wfJ r.toWireJson = true := by
  obtain ⟨st, d, e, m, ts, md⟩ := r
  simp only [wfDict, Bool.and_eq_true] at hm
  rcases d with - | d <;> rcases e with - | e <;> rcases m with - | m <;>
    rcases ts with - | ts <;>
    simp only [wfOptDict, wfDict, Bool.and_eq_true] at hd he <;>
    simp [Response.toWireJson, wfJ, noDupKeys, keyNotIn, wfFields, hm.1, hm.2] <;>
    simp_all

theorem responseOfJson_toWireJson (now : DateTimeUTC) (r : Response) :
    responseOfJson now r.toWireJson = some r := by
  obtain ⟨st, d, e, m, ts, md⟩ := r
  rcases d with - | d <;> rcases e with - | e <;> rcases m with - | m <;>
    rcases ts with - | ts <;>
    simp [Response.toWireJson, responseOfJson, listGet, statusOfWire_toWire,
      decodeOptObj, decodeOptStr, decodeTimestamp, decodeMapField]

/-- `Protocol.decode (Protocol.encode resp, response=True)` returns the
response unchanged. -/
theorem decodeResponse_encodeResponse (now : DateTimeUTC) (r : Response)
    (hd : wfOptDict r.data = true) (he : wfOptDict r.error = true)
    (hm : wfDict r.metadata = true) :
    decodeResponse now (encodeResponse r) = some r := by
  unfold decodeResponse encodeResponse
  rw [rawDecode_print _ (response_toWireJson_wf r hd he hm)]
  simp [responseOfJson_toWireJson, skipWs]



mutual

/-- Python `repr()` of a JSON-ish value (container reprs are modelled
without inner-quote escaping, which no verified behaviour depends on). -/
def pyReprOne : JValue → String
  | .jnull => "None"
  | .jbool true => "True"
  | .jbool false => "False"
  | .jnum n => String.mk (intChars n)
  | .jstr s => "'" ++ s ++ "'"
  | .jarr xs => "[" ++ pyReprList xs ++ "]"
  | .jobj kvs => "\x7b" ++ pyReprFields kvs ++ "\x7d"

/-- Comma-separated reprs of list items. -/
def pyReprList : List JValue → String
  | [] => ""
  | [x] => pyReprOne x
  | x :: y :: r => pyReprOne x ++ ", " ++ pyReprList (y :: r)

/-- Comma-separated reprs of dict entries. -/
def pyReprFields : List (String × JValue) → String
  | [] => ""
  | [(k, v)] => "'" ++ k ++ "': " ++ pyReprOne v
  | (k, v) :: m :: r => "'" ++ k ++ "': " ++ pyReprOne v ++ ", " ++ pyReprFields (m :: r)

end

/-- `str(value)`: a string is itself, anything else its repr rendering. -/
def pyStr : JValue → String
  | .jstr s => s
  | v => pyReprOne v

/-! ## Errors (`src/bridge/errors.py`) -/

/-- Python truthiness of a JSON-ish value (`bool(x)`). -/
def pyFalsy : JValue → Bool
  | .jnull => true
  | .jbool b => !b
  | .jnum n => n = 0
  | .jstr s => s = ""
  | .jarr xs => xs.isEmpty
  | .jobj kvs => kvs.isEmpty

/-- The typed exceptions of `errors.py`, carrying the attributes their
constructors store.  Fields coming from backend JSON keep type `JValue`
because Python stores them untyped.  `pyRuntimeError` stands for an uncaught
Python exception (e.g. calling `.items()` on a non-mapping). -/
inductive BridgeError where
  | backendError : JValue → JValue → JValue → BridgeError
  | backendTimeout : JValue → Int → BridgeError
  | invalidResponse : String → Option String → BridgeError
  | backendNotFound : JValue → BridgeError
  | permissionError : JValue → BridgeError
  | packageNotFound : JValue → BridgeError
  | dependencyError : JValue → JValue → BridgeError
  | validationError : JValue → JValue → BridgeError
  | systemError : JValue → JValue → BridgeError
  | pyRuntimeError : String → BridgeError

/-- `d.get(k)` (default `None`) on a value that should be a mapping; `none`
models the `AttributeError` a non-mapping raises. -/
def dictGet : JValue → String → Option JValue
  | .jobj kvs, k => some (listGetD kvs k .jnull)
  | _, _ => none

/-- `d.get(k, dflt)` on a value that should be a mapping. -/
def dictGetD : JValue → String → JValue → Option JValue
  | .jobj kvs, k, dflt => some (listGetD kvs k dflt)
  | _, _, _ => none

/-- `BackendError.__init__` defaulting: `code or "UNKNOWN_ERROR"`,
`details or {}`. -/
def mkBackendError (message code details : JValue) : BridgeError :=
  .backendError message (if pyFalsy code then .jstr ("UNKNOWN_ERROR") else code)
    (if pyFalsy details then .jobj [] else details)

/-- `parse_backend_error` (`errors.py`): dispatch on `error.code` through the
string-keyed map, falling back to a generic `BackendError` for unrecognized
codes (and for non-string codes, which match no map key). -/
def parseBackendError (errorData : List (String × JValue)) : BridgeError :=
  let code := listGetD errorData ("code") (.jstr ("UNKNOWN_ERROR"))
  let message := listGetD errorData ("message") (.jstr ("Unknown error occurred"))
  let details := listGetD errorData ("details") (.jobj [])
  match code with
  | .jstr c =>
    if c = "TIMEOUT" then .backendTimeout message 0
    else if c = "INVALID_RESPONSE" then .invalidResponse (pyStr message) none
    else if c = "SCRIPT_NOT_FOUND" then
      (match dictGetD details ("path") (.jstr ("unknown")) with
       | some p => .backendNotFound p
       | none => .pyRuntimeError ("details is not a mapping"))
    else if c = "PERMISSION_DENIED" then .permissionError message
    else if c = "PACKAGE_NOT_FOUND" then
      (match dictGetD details ("package") (.jstr ("unknown")) with
       | some p => .packageNotFound p
       | none => .pyRuntimeError ("details is not a mapping"))
    else if c = "DEPENDENCY_CONFLICT" then
      (match dictGet details ("conflicting_packages") with
       | some cp => .dependencyError message (if pyFalsy cp then .jarr [] else cp)
       | none => .pyRuntimeError ("details is not a mapping"))
    else if c = "VALIDATION_ERROR" then
      (match dictGet details ("field") with
       | some fv => .validationError message fv
       | none => .pyRuntimeError ("details is not a mapping"))
    else if c = "SYSTEM_ERROR" then
      (match dictGet details ("command") with
       | some cv => .systemError message cv
       | none => .pyRuntimeError ("details is not a mapping"))
    else mkBackendError message code details
  | _ => mkBackendError message code details

/-- The preview `InvalidResponseError.__str__` shows: the raw output itself
when it has at most 100 characters, else its first 100 characters followed
by an ellipsis. -/
def previewRaw (raw : String) : String :=
  if raw.length > 100 then String.mk (raw.data.take 100) ++ "..." else raw

/-- `InvalidResponseError.__str__`: the message, plus the bounded preview of
the raw output when one is present and non-empty. -/
def invalidResponseStr (message : String) (rawOutput : Option String) : String :=
  match rawOutput with
  | some raw => if raw = "" then message else message ++ "\nRaw output: " ++ previewRaw raw
  | none => message

/-! ## The Caller (`src/bridge/backend.py`) -/

/-- `f"--{key.replace('_', '-')}"`: every underscore becomes a hyphen
(replacing a single character is a character map). -/
def flagName (key : String) : String :=
  "--" ++ String.mk (key.data.map (fun c => if c = '_' then '-' else c))

/-- The flag emission loop of `_build_command` over `options.items()`:
boolean `True` emits one flag, boolean `False` nothing, any other value the
flag followed by its `str()` form. -/
def optionFlags : List (String × JValue) → List JValue
  | [] => []
  | (k, v) :: rest =>
    (match v with
     | .jbool true => [JValue.jstr (flagName k)]
     | .jbool false => []
     | _ => [JValue.jstr (flagName k), JValue.jstr (pyStr v)]) ++ optionFlags rest

/-- `BackendCaller._build_command`: base vector `[shell, script, action]`,
then `packages` (list elements appended as they are, scalar via `str`), then
`query`, then `args`, then the option flags.  No package-name validation is
performed.  `none` models the `AttributeError` raised when `options` is not
a mapping. -/
def buildCommand (shell scriptPath action : String)
    (params : List (String × JValue)) : Option (List JValue) :=
  let cmd := [JValue.jstr shell, JValue.jstr scriptPath, JValue.jstr action]
  let cmd := match listGet params ("packages") with
    | some (.jarr xs) => cmd ++ xs
    | some v => cmd ++ [JValue.jstr (pyStr v)]
    | none => cmd
  let cmd := match listGet params ("query") with
    | some v => cmd ++ [JValue.jstr (pyStr v)]
    | none => cmd
  let cmd := match listGet params ("args") with
    | some (.jarr xs) => cmd ++ xs.map (fun a => JValue.jstr (pyStr a))
    | some v => cmd ++ [JValue.jstr (pyStr v)]
    | none => cmd
  match listGet params ("options") with
  | some (.jobj opts) => some (cmd ++ optionFlags opts)
  | some _ => none
  | none => some cmd

/-- `timeout = timeout or self.timeout`: `None` and `0` are falsy and fall
back to the instance default; any other value is used as given. -/
def effectiveTimeout : Option Int → Int → Int
  | none, dflt => dflt
  | some t, dflt => if t = 0 then dflt else t

/-- What `subprocess.run` produced. -/
structure ExecResult where
  exitCode : Int
  stdout : String
  stderr : String

/-- How one subprocess invocation can go. -/
inductive ExecOutcome where
  | completed : ExecResult → ExecOutcome
  | timedOut : ExecOutcome
  | launchFailure : String → ExecOutcome

/-- The caller's fixed configuration (`BackendCaller.__init__`). -/
structure CallerState where
  backendDir : String
  timeout : Int
  shell : String

/-- The world one `call` runs against: the filesystem at that instant, the
subprocess behaviour, and the clock. -/
structure Env where
  fileExists : String → Bool
  run : List JValue → Int → ExecOutcome
  now : DateTimeUTC

/-- `self.backend_dir / f"{module}.zsh"`. -/
def scriptPathOf (st : CallerState) (module : String) : String :=
  st.backendDir ++ "/" ++ module ++ ".zsh"

/-- `BackendCaller._get_script_path`: checked against the filesystem on
every call. -/
def getScriptPath (st : CallerState) (env : Env) (module : String) :
    Except BridgeError String :=
  if env.fileExists (scriptPathOf st module) then .ok (scriptPathOf st module)
  else .error (.backendNotFound (.jstr (scriptPathOf st module)))

/-- `BackendCaller._execute_script`. -/
def executeScript (st : CallerState) (env : Env) (cmd : List JValue)
    (timeout : Option Int) : Except BridgeError ExecResult :=
  let t := effectiveTimeout timeout st.timeout
  match env.run cmd t with
  | .completed r => .ok r
  | .timedOut =>
    .error (.backendTimeout
      (.jstr ("Backend script timed out after (" ++ String.mk (intChars t) ++ ")s")) t)
  | .launchFailure msg =>
    .error (.backendError (.jstr ("Failed to execute backend script: " ++ msg))
      (.jstr ("EXECUTION_FAILED")) (.jobj []))

/-- Python whitespace stripped by `str.strip()`. -/
def isPyWs (c : Char) : Bool :=
  c = ' ' || c = '\t' || c = '\n' || c = '\r' || c = '\x0b' || c = '\x0c'

/-- `str.strip()`. -/
def pyStrip (s : String) : String :=
  String.mk (((s.data.dropWhile isPyWs).reverse.dropWhile isPyWs).reverse)

/-- `BackendCaller._parse_response`: strip stdout, `raw_decode` the first
JSON value, validate it as a Response, and raise the typed backend error
when the response has status `error` with a truthy (non-empty) `error`
mapping; otherwise return the response as parsed.  The exit code is never
consulted. -/
def parseResponse (now : DateTimeUTC) (result : ExecResult) :
    Except BridgeError Response :=
  match rawDecode (pyStrip result.stdout) with
  | none =>
    .error (.invalidResponse ("Backend returned invalid JSON")
      (some (if pyStrip result.stdout = "" then pyStrip result.stderr
             else pyStrip result.stdout)))
  | some (v, _) =>
    match responseOfJson now v with
    | none =>
      .error (.invalidResponse ("Failed to parse backend response")
        (some (pyStrip result.stdout)))
    | some response =>
      match response.status, response.error with
      | .error, some (kv :: rest) => .error (parseBackendError (kv :: rest))
      | _, _ => .ok response

/-- `params = params or \x7b\x7d`: an absent params mapping becomes empty
(an explicitly empty mapping is falsy too and stays empty). -/
def paramsOrEmpty : Option (List (String × JValue)) → List (String × JValue)
  | none => []
  | some p => p

/-- `BackendCaller.call`, instrumented with the list of command vectors that
were handed to `subprocess.run` (empty when the call fails before any
process is spawned). -/
def call (st : CallerState) (env : Env) (module action : String)
    (params : Option (List (String × JValue))) (timeout : Option Int) :
    List (List JValue) × Except BridgeError Response :=
  match getScriptPath st env module with
  | .error e => ([], .error e)
  | .ok sp =>
    match buildCommand st.shell sp action (paramsOrEmpty params) with
    | none => ([], .error (.pyRuntimeError ("options is not a mapping")))
    | some cmd =>
      match executeScript st env cmd timeout with
      | .error e => ([cmd], .error e)
      | .ok result => ([cmd], parseResponse env.now result)



/-! ## Facts about `_parse_response` and `call` -/

/-- When `_parse_response` returns a Response with status `error`, the error
field is absent or an empty mapping (a populated error mapping is always
raised as a typed exception instead). -/
theorem parseResponse_ok_error_shape (now : DateTimeUTC) (res : ExecResult)
    (r : Response) (h : parseResponse now res = .ok r) (hs : r.status = .error) :
    r.error = none ∨ r.error = some [] := by
  unfold parseResponse at h
  cases hr : rawDecode (pyStrip res.stdout) with
  | none => rw [hr] at h; exact absurd h (by simp)
  | some p =>
    obtain ⟨v, rest⟩ := p
    rw [hr] at h
    dsimp only at h
    cases ho : responseOfJson now v with
    | none => rw [ho] at h; exact absurd h (by simp)
    | some resp =>
      rw [ho] at h
      dsimp only at h
      rcases hre : resp.error with - | e
      · rw [hre] at h
        cases hst : resp.status <;> rw [hst] at h <;> simp at h <;>
          rw [← h, hre] <;> exact Or.inl rfl
      · cases e with
        | nil =>
          rw [hre] at h
          cases hst : resp.status <;> rw [hst] at h <;> simp at h <;>
            rw [← h, hre] <;> exact Or.inr rfl
        | cons kv restE =>
          rw [hre] at h
          cases hst : resp.status <;> rw [hst] at h <;> simp at h <;>
            rw [← h] at hs <;> rw [hst] at hs <;> exact absurd hs (by simp)

/-- When the parsed Response has status `error` and a populated (non-empty)
error mapping, `_parse_response` raises exactly the typed error
`parse_backend_error` assigns to it. -/
theorem parseResponse_raises (now : DateTimeUTC) (res : ExecResult)
    (v : JValue) (rest : List Char) (resp : Response)
    (kv : String × JValue) (restE : List (String × JValue))
    (hr : rawDecode (pyStrip res.stdout) = some (v, rest))
    (ho : responseOfJson now v = some resp)
    (hs : resp.status = .error) (he : resp.error = some (kv :: restE)) :
    parseResponse now res = .error (parseBackendError (kv :: restE)) := by
  unfold parseResponse
  rw [hr]
  dsimp only
  rw [ho]
  dsimp only
  rw [hs, he]



/-! ## Concrete fixtures for the claims -/

/-- A fixed clock instant (with a nonzero microsecond component, as
`datetime.now` virtually always returns). -/
def clock0 : DateTimeUTC := ⟨2024, 1, 15, 10, 30, 15, 123456⟩

/-- An environment whose backend replies `{"status":"error"}`. -/
def envErrorNoField : Env :=
  ⟨fun _ => true, fun _ _ => .completed ⟨0, "\x7b\"status\":\"error\"\x7d", ""⟩, clock0⟩

/-- An environment whose backend exits with code 1 yet prints a valid
success JSON body. -/
def envExitOneSuccess : Env :=
  ⟨fun _ => true,
   fun _ _ => .completed
     ⟨1,
      "\x7b\"status\":\"success\",\"data\":\x7b\x7d,\"timestamp\":\"2024-01-01T00:00:00Z\"\x7d",
      ""⟩,
   clock0⟩

/-- An environment with no script files at all. -/
def envNoScripts : Env :=
  ⟨fun _ => false, fun _ _ => .completed ⟨0, "", ""⟩, clock0⟩

/-- A raw output longer than 100 characters. -/
def longRaw : String := String.mk (List.replicate 150 'x')

/-! ## The claims -/

/-- C1: the claim (and the repository's own test
`test_invalid_package_name_rejected`) requires each package name to be
validated against the allow-list before any subprocess argument is built,
raising `ValidationError` for a name such as `-evil`; but `_build_command`
in `src/bridge/backend.py` performs no validation at all: the hyphen-led
name `-evil` flows straight into the argument vector and no error is ever
raised. -/
theorem buildCommand_no_package_validation (sp : String) :
    buildCommand ("zsh") sp ("install") [("packages", .jarr [.jstr ("-evil")])] =
      some [.jstr ("zsh"), .jstr sp, .jstr ("install"), .jstr ("-evil")] := by
  simp [buildCommand, listGet]

/-- C2 (amended): whenever `call` returns a Response whose status is
`error`, that response's `error` field is absent or an empty mapping — an
error-status response with a populated error mapping is always raised as a
typed error instead.  (The original claim, that an error-status Response is
never returned even when its error field is unpopulated, is false.) -/
theorem call_error_status_only_unpopulated (st : CallerState) (env : Env)
    (module action : String) (params : Option (List (String × JValue)))
    (timeout : Option Int) (r : Response)
    (h : (call st env module action params timeout).2 = .ok r)
    (hs : r.status = .error) :
    r.error = none ∨ r.error = some [] := by
  unfold call at h
  cases hg : getScriptPath st env module with
  | error e => rw [hg] at h; exact absurd h (by simp)
  | ok sp =>
    rw [hg] at h
    dsimp only at h
    cases hb : buildCommand st.shell sp action (paramsOrEmpty params) with
    | none => rw [hb] at h; exact absurd h (by simp)
    | some cmd =>
      rw [hb] at h
      dsimp only at h
      cases he : executeScript st env cmd timeout with
      | error e2 => rw [he] at h; exact absurd h (by simp)
      | ok result =>
        rw [he] at h
        dsimp only at h
        exact parseResponse_ok_error_shape env.now result r h hs

/-- C2 witness: a concrete call that returns an error-status response, whose
error field is indeed unpopulated. -/
theorem call_error_status_only_unpopulated_witness :
    (call ⟨"/b", 300, "zsh"⟩ envErrorNoField ("package") "install" none none).2 =
        .ok ⟨.error, none, none, none, none, []⟩ ∧
      (Response.error ⟨.error, none, none, none, none, []⟩ = none ∨
        Response.error ⟨.error, none, none, none, none, []⟩ = some []) :=
  ⟨rfl, call_error_status_only_unpopulated ⟨"/b", 300, "zsh"⟩ envErrorNoField
    "package" "install" none none ⟨.error, none, none, none, none, []⟩ rfl rfl⟩

/-- C2 counterexample: a backend reply `{"status":"error"}` — an error
status with no populated error field — is returned by `call` as a Response
whose status equals `error`, so `call` does not uphold the claimed
guarantee in that case. -/
theorem call_returns_error_status_counterexample :
    (call ⟨"/b", 300, "zsh"⟩ envErrorNoField ("package") "install" none none).2 =
        .ok ⟨.error, none, none, none, none, []⟩ ∧
      Response.status ⟨StatusType.error, none, none, none, none, []⟩ = .error :=
  ⟨rfl, rfl⟩

/-- C3 (amended): the parser decodes exactly the first JSON object of the
stripped stdout and ignores arbitrary trailing bytes (shown both in general
for every printed object and on the spec's concrete example), but text
preceding the JSON object is not tolerated; when no JSON can be decoded the
invalid-response error's rendering carries a bounded preview of the raw
output — the output itself when it has at most 100 characters, otherwise
its first 100 characters followed by an ellipsis, 103 characters in all. -/
theorem parse_first_json_trailing_only :
    (∀ kvs t, wfJ (.jobj kvs) = true →
      rawDecode (String.mk (printChars (.jobj kvs) ++ t)) = some (.jobj kvs, t)) ∧
    (∀ now : DateTimeUTC,
      parseResponse now
        ⟨0,
         "\x7b\"status\":\"success\",\"data\":\x7b\x7d,\"timestamp\":\"2024-01-01T00:00:00Z\"\x7d\nDEBUG: extra line",
         ""⟩ =
        .ok ⟨.success, some [], none, none, some ("2024-01-01T00:00:00Z"), []⟩) ∧
    (∀ raw : String,
      (raw.length ≤ 100 → previewRaw raw = raw) ∧
      (100 < raw.length →
        previewRaw raw = String.mk (raw.data.take 100) ++ "..." ∧
        (previewRaw raw).length = 103)) := by
  refine ⟨fun kvs t h => rawDecode_obj_trailing kvs h t, fun now => rfl, fun raw => ⟨?_, ?_⟩⟩
  · intro h
    simp [previewRaw, Nat.not_lt.mpr h]
  · intro h
    refine ⟨by simp [previewRaw, h], ?_⟩
    simp only [previewRaw, if_pos h]
    rw [String.length_append]
    have h1 : (String.mk (raw.data.take 100)).length = 100 := by
      show (raw.data.take 100).length = 100
      rw [List.length_take]
      have : raw.data.length = raw.length := rfl
      omega
    rw [h1]
    rfl

/-- C3 witness: a printed object with one trailing byte parses back exactly,
and a 150-character raw output is previewed at 103 characters. -/
theorem parse_first_json_trailing_only_witness :
    rawDecode (String.mk (printChars (.jobj [("a", JValue.jnull)]) ++ ['Z'])) =
        some (.jobj [("a", JValue.jnull)], ['Z']) ∧
      (previewRaw longRaw).length = 103 :=
  ⟨parse_first_json_trailing_only.1 [("a", JValue.jnull)] ['Z'] rfl,
    ((parse_first_json_trailing_only.2.2 longRaw).2 (by
      simp [longRaw, String.length])).2⟩

/-- C3 counterexample: a stdout stream holding a complete JSON object
preceded by one log line — `raw_decode` starts at position zero, so the
Caller raises the invalid-response error instead of locating the object
(which on its own is perfectly decodable). -/
theorem parse_preceded_json_counterexample :
    parseResponse clock0 ⟨0, "NOTE: hi\n\x7b\"status\":\"success\"\x7d", ""⟩ =
        .error (.invalidResponse ("Backend returned invalid JSON")
          (some ("NOTE: hi\n\x7b\"status\":\"success\"\x7d"))) ∧
      rawDecode ("\x7b\"status\":\"success\"\x7d") =
        some (.jobj [("status", .jstr ("success"))], []) :=
  ⟨rfl, rfl⟩

/-- C4 (amended): when the parsed Response has status `error` and a
populated (non-empty) error mapping, `call` raises exactly the typed error
`parse_backend_error` assigns: code `PACKAGE_NOT_FOUND` maps to the
package-not-found error carrying `details.package`, `DEPENDENCY_CONFLICT`
to the dependency error carrying the conflicting-package list, and every
unrecognized code to the generic backend error carrying the original code
and message.  (An error-status response whose error mapping is empty is
returned, not raised, so the claim needs the mapping to be non-empty.) -/
theorem error_code_dispatch :
    (∀ (now : DateTimeUTC) (res : ExecResult) (v : JValue) (rest : List Char)
        (resp : Response) (kv : String × JValue) (restE : List (String × JValue)),
      rawDecode (pyStrip res.stdout) = some (v, rest) →
      responseOfJson now v = some resp → resp.status = .error →
      resp.error = some (kv :: restE) →
      parseResponse now res = .error (parseBackendError (kv :: restE))) ∧
    (∀ (e : List (String × JValue)) (p : JValue),
      listGetD e ("code") (.jstr ("UNKNOWN_ERROR")) = .jstr ("PACKAGE_NOT_FOUND") →
      dictGetD (listGetD e ("details") (.jobj [])) "package" (.jstr ("unknown")) = some p →
      parseBackendError e = .packageNotFound p) ∧
    (∀ (e : List (String × JValue)) (cp : JValue),
      listGetD e ("code") (.jstr ("UNKNOWN_ERROR")) = .jstr ("DEPENDENCY_CONFLICT") →
      dictGet (listGetD e ("details") (.jobj [])) "conflicting_packages" = some cp →
      pyFalsy cp = false →
      parseBackendError e =
        .dependencyError (listGetD e ("message") (.jstr ("Unknown error occurred"))) cp) ∧
    (∀ (e : List (String × JValue)) (c : String),
      listGetD e ("code") (.jstr ("UNKNOWN_ERROR")) = .jstr c →
      c ∉ (["TIMEOUT", "INVALID_RESPONSE", "SCRIPT_NOT_FOUND", "PERMISSION_DENIED",
        "PACKAGE_NOT_FOUND", "DEPENDENCY_CONFLICT", "VALIDATION_ERROR",
        "SYSTEM_ERROR"] : List String) →
      parseBackendError e =
        mkBackendError (listGetD e ("message") (.jstr ("Unknown error occurred")))
          (.jstr c) (listGetD e ("details") (.jobj []))) := by
  refine ⟨parseResponse_raises, ?_, ?_, ?_⟩
  · intro e p hc hd
    unfold parseBackendError
    rw [hc]
    simp only [reduceIte]
    simp [hd]
  · intro e cp hc hd hf
    unfold parseBackendError
    rw [hc]
    simp only [reduceIte]
    simp [hd, hf]
  · intro e c hc hnotin
    simp only [List.mem_cons, List.mem_singleton, not_or] at hnotin
    obtain ⟨n1, n2, n3, n4, n5, n6, n7, n8⟩ := hnotin
    unfold parseBackendError
    rw [hc]
    simp [n1, n2, n3, n4, n5, n6, n7, n8]

/-- C4 witness: concrete dispatches — a `PACKAGE_NOT_FOUND` reply raises the
package-not-found error carrying the package name, and an unknown code
`WEIRD` yields the generic backend error carrying that code. -/
theorem error_code_dispatch_witness :
    parseResponse clock0
        ⟨0,
         "\x7b\"status\":\"error\",\"error\":\x7b\"code\":\"PACKAGE_NOT_FOUND\",\"message\":\"not found\",\"details\":\x7b\"package\":\"vim\"\x7d\x7d\x7d",
         ""⟩ =
        .error (parseBackendError
          [("code", .jstr ("PACKAGE_NOT_FOUND")), ("message", .jstr ("not found")),
            ("details", .jobj [("package", .jstr ("vim"))])]) ∧
      parseBackendError
          [("code", .jstr ("PACKAGE_NOT_FOUND")), ("message", .jstr ("not found")),
            ("details", .jobj [("package", .jstr ("vim"))])] =
        .packageNotFound (.jstr ("vim")) ∧
      parseBackendError [("code", .jstr ("WEIRD")), ("message", .jstr ("m"))] =
        mkBackendError (.jstr ("m")) (.jstr ("WEIRD")) (.jobj []) :=
  ⟨error_code_dispatch.1 clock0
      ⟨0,
       "\x7b\"status\":\"error\",\"error\":\x7b\"code\":\"PACKAGE_NOT_FOUND\",\"message\":\"not found\",\"details\":\x7b\"package\":\"vim\"\x7d\x7d\x7d",
       ""⟩
      (.jobj [("status", .jstr ("error")),
        ("error", .jobj [("code", .jstr ("PACKAGE_NOT_FOUND")),
          ("message", .jstr ("not found")),
          ("details", .jobj [("package", .jstr ("vim"))])])])
      [] ⟨.error, none,
        some [("code", .jstr ("PACKAGE_NOT_FOUND")), ("message", .jstr ("not found")),
          ("details", .jobj [("package", .jstr ("vim"))])], none, none, []⟩
      ("code", .jstr ("PACKAGE_NOT_FOUND"))
      [("message", .jstr ("not found")), ("details", .jobj [("package", .jstr ("vim"))])]
      rfl rfl rfl rfl,
    error_code_dispatch.2.1
      [("code", .jstr ("PACKAGE_NOT_FOUND")), ("message", .jstr ("not found")),
        ("details", .jobj [("package", .jstr ("vim"))])]
      (.jstr ("vim")) rfl rfl,
    error_code_dispatch.2.2.2 [("code", .jstr ("WEIRD")), ("message", .jstr ("m"))]
      "WEIRD" rfl (by decide)⟩

/-- C4 counterexample: `{"status":"error","error":{}}` has status `error`
with an error mapping (the empty one), yet `_parse_response` returns the
Response instead of raising a typed error — the original claim fails for an
empty error mapping. -/
theorem error_empty_mapping_counterexample :
    parseResponse clock0 ⟨0, "\x7b\"status\":\"error\",\"error\":\x7b\x7d\x7d", ""⟩ =
      .ok ⟨.error, none, some [], none, none, []⟩ :=
  rfl



/-- Which decode flag `Protocol.decode` needs for a message of this kind. -/
def isRespFlag : Message → Bool
  | .req _ => false
  | .resp _ => true

/-- The message's mappings are real Python dicts (no duplicated keys,
recursively). -/
def messageWf : Message → Bool
  | .req r => wfDict r.params && wfDict r.metadata
  | .resp r => wfOptDict r.data && (wfOptDict r.error && wfDict r.metadata)

/-- C5: for every valid Request and Response value,
`Protocol.decode (Protocol.encode x)` reproduces the value exactly — every
field keeps its value and optional fields that were absent stay absent. -/
theorem protocol_roundtrip (now : DateTimeUTC) (m : Message)
    (h : messageWf m = true) :
    protocolDecode (isRespFlag m) now (protocolEncode m) = some m := by
  cases m with
  | req r =>
    simp only [messageWf, Bool.and_eq_true] at h
    simp only [protocolDecode, isRespFlag, protocolEncode, Bool.false_eq_true, if_false]
    rw [decodeRequest_encodeRequest r h.1 h.2]
    rfl
  | resp r =>
    simp only [messageWf, Bool.and_eq_true] at h
    simp only [protocolDecode, isRespFlag, protocolEncode, if_true]
    rw [decodeResponse_encodeResponse now r h.1 h.2.1 h.2.2]
    rfl

/-- A sample response exercising present and absent optional fields. -/
def sampleResponse : Response :=
  ⟨.success, some [("installed", .jarr [.jstr ("vim"), .jstr ("git")])], none,
    some ("ok"), some ("2024-01-01T00:00:00Z"), []⟩

/-- C5 witness: the round-trip at a concrete response. -/
theorem protocol_roundtrip_witness :
    messageWf (.resp sampleResponse) = true ∧
      protocolDecode true clock0 (protocolEncode (.resp sampleResponse)) =
        some (.resp sampleResponse) :=
  ⟨rfl, protocol_roundtrip clock0 (.resp sampleResponse) rfl⟩

/-- C6 (amended): a Response constructed with the timestamp argument
omitted keeps the timestamp absent (pydantic does not validate defaults); a
Response constructed with timestamp explicitly `None` is auto-filled with
the clock's `isoformat()` whose `+00:00` offset is rewritten into a `Z`
suffix — a string of the form `YYYY-MM-DDTHH:MM:SS[.ffffff]Z`, the
fractional part present exactly when the microsecond component is
nonzero — and an explicit string is kept as given. -/
theorem timestamp_validator_behaviour (now : DateTimeUTC) (st : StatusType)
    (d e : Option (List (String × JValue))) (m : Option String)
    (md : List (String × JValue)) (s : String) :
    (mkResponse now st d e m none md).timestamp = none ∧
    (mkResponse now st d e m (some none) md).timestamp = some (genTimestamp now) ∧
    (mkResponse now st d e m (some (some s)) md).timestamp = some s ∧
    genTimestamp now = isoformatCore now ++ "Z" ∧
    isoformatUTC now = isoformatCore now ++ "+00:00" ∧
    (now.microsecond ≠ 0 →
      isoformatCore now = isoformatBase now ++ ("." ++ padNum 6 now.microsecond)) ∧
    (now.microsecond = 0 → isoformatCore now = isoformatBase now) := by
  refine ⟨rfl, rfl, rfl, rfl, rfl, fun h => ?_, fun h => ?_⟩
  · simp only [isoformatCore, if_neg h]
  · simp only [isoformatCore, if_pos h]
    simp

/-- C6 witness: the validator behaviour at the fixed clock instant. -/
theorem timestamp_validator_behaviour_witness :
    (mkResponse clock0 .success none none none none []).timestamp = none ∧
      (mkResponse clock0 .success none none none (some none) []).timestamp =
        some (genTimestamp clock0) ∧
      isoformatCore clock0 = isoformatBase clock0 ++ ("." ++ padNum 6 123456) :=
  ⟨(timestamp_validator_behaviour clock0 .success none none none [] "x").1,
    (timestamp_validator_behaviour clock0 .success none none none [] "x").2.1,
    (timestamp_validator_behaviour clock0 .success none none none [] "x").2.2.2.2.2.1
      (by decide)⟩

/-- C6 counterexample: a Response constructed with the timestamp omitted has
no timestamp at all — the system does not auto-generate one (the validator
only runs for an explicitly supplied `None`). -/
theorem timestamp_omitted_counterexample :
    (mkResponse clock0 .success none none none none []).timestamp = none :=
  rfl

/-- C7: the process exit code plays no part in response parsing — two
results differing only in exit code parse identically — and a concrete call
whose backend exits with code 1 while printing a `status: success` JSON
body is returned as a success Response. -/
theorem exit_code_not_authoritative :
    (∀ (now : DateTimeUTC) (rc rc' : Int) (out err : String),
      parseResponse now ⟨rc, out, err⟩ = parseResponse now ⟨rc', out, err⟩) ∧
    (call ⟨"/b", 300, "zsh"⟩ envExitOneSuccess ("package") "install" none none).2 =
      .ok ⟨.success, some [], none, none, some ("2024-01-01T00:00:00Z"), []⟩ := by
  exact ⟨fun now rc rc' out err => rfl, rfl⟩

/-- C8: over an options mapping, command construction emits for each
boolean-true entry exactly the flag `--key` with underscores turned into
hyphens, for each boolean-false entry nothing, and for each non-boolean
entry the flag followed by the value's `str()` form as a separate vector
element; in particular `{"no_confirm": true, "as_deps": false}` adds
exactly the single flag `--no-confirm`. -/
theorem options_flag_emission :
    (∀ (sh sp act : String) (opts : List (String × JValue)),
      buildCommand sh sp act [("options", .jobj opts)] =
        some ([JValue.jstr sh, .jstr sp, .jstr act] ++
          opts.flatMap (fun kv =>
            match kv.2 with
            | .jbool true => [JValue.jstr (flagName kv.1)]
            | .jbool false => []
            | v => [JValue.jstr (flagName kv.1), JValue.jstr (pyStr v)]))) ∧
    buildCommand ("zsh") "s" "install"
        [("options", .jobj [("no_confirm", .jbool true), ("as_deps", .jbool false)])] =
      some [.jstr ("zsh"), .jstr ("s"), .jstr ("install"), .jstr ("--no-confirm")] ∧
    buildCommand ("zsh") "s" "clean"
        [("options", .jobj [("keep_versions", .jstr ("3"))])] =
      some [.jstr ("zsh"), .jstr ("s"), .jstr ("clean"), .jstr ("--keep-versions"), .jstr ("3")] := by
  refine ⟨fun sh sp act opts => ?_, rfl, rfl⟩
  have hflags : ∀ l : List (String × JValue),
      optionFlags l = l.flatMap (fun kv =>
        match kv.2 with
        | .jbool true => [JValue.jstr (flagName kv.1)]
        | .jbool false => []
        | v => [JValue.jstr (flagName kv.1), JValue.jstr (pyStr v)]) := by
    intro l
    induction l with
    | nil => rfl
    | cons kv rest ih =>
      obtain ⟨k, v⟩ := kv
      simp only [optionFlags, ih, List.flatMap_cons]
      cases v with
      | jnull => rfl
      | jbool b => cases b <;> rfl
      | jnum n => rfl
      | jstr s2 => rfl
      | jarr xs => rfl
      | jobj ks => rfl
  simp [buildCommand, listGet, hflags]

/-- C9: a call against a module whose script file does not exist raises the
not-found error before any subprocess is spawned (the spawn log stays
empty); the existence check runs on every call — the same caller state
spawns the process as soon as the current filesystem has the script. -/
theorem missing_script_no_spawn :
    (∀ (st : CallerState) (env : Env) (module action : String)
        (params : Option (List (String × JValue))) (timeout : Option Int),
      env.fileExists (scriptPathOf st module) = false →
      call st env module action params timeout =
        ([], .error (.backendNotFound (.jstr (scriptPathOf st module))))) ∧
    (∀ (st : CallerState) (env : Env) (module action : String)
        (params : Option (List (String × JValue))) (timeout : Option Int)
        (cmd : List JValue),
      env.fileExists (scriptPathOf st module) = true →
      buildCommand st.shell (scriptPathOf st module) action (paramsOrEmpty params) =
        some cmd →
      (call st env module action params timeout).1 = [cmd]) := by
  constructor
  · intro st env module action params timeout h
    unfold call getScriptPath
    rw [h]
    rfl
  · intro st env module action params timeout cmd h hb
    unfold call getScriptPath
    rw [h]
    simp only [reduceIte]
    rw [hb]
    cases hex : executeScript st env cmd timeout <;> simp [hex]

/-- C9 witness: with no script on disk the call raises not-found and spawns
nothing; with the script present the very same caller state spawns the
command. -/
theorem missing_script_no_spawn_witness :
    call ⟨"/b", 300, "zsh"⟩ envNoScripts ("package") "install" none none =
        ([], .error (.backendNotFound (.jstr ("/b/package.zsh")))) ∧
      (call ⟨"/b", 300, "zsh"⟩ envExitOneSuccess ("package") "install" none none).1 =
        [[.jstr ("zsh"), .jstr ("/b/package.zsh"), .jstr ("install")]] :=
  ⟨missing_script_no_spawn.1 ⟨"/b", 300, "zsh"⟩ envNoScripts ("package") "install"
      none none rfl,
    missing_script_no_spawn.2 ⟨"/b", 300, "zsh"⟩ envExitOneSuccess ("package") "install"
      none none [.jstr ("zsh"), .jstr ("/b/package.zsh"), .jstr ("install")] rfl rfl⟩

/-- C10 (implicit): the effective timeout is `timeout or self.timeout`, so
an explicit per-call timeout of 0 is treated as absent and the instance
default is used — a call with timeout 0 behaves exactly like a call with no
timeout — while every non-zero explicit timeout is used as given. -/
theorem timeout_zero_falls_back :
    (∀ d : Int, effectiveTimeout (some 0) d = d) ∧
    (∀ t d : Int, t ≠ 0 → effectiveTimeout (some t) d = t) ∧
    (∀ (st : CallerState) (env : Env) (module action : String)
        (params : Option (List (String × JValue))),
      call st env module action params (some 0) =
        call st env module action params none) := by
  refine ⟨fun d => rfl, fun t d h => by simp [effectiveTimeout, h], ?_⟩
  intro st env module action params
  have hexec : ∀ cmd, executeScript st env cmd (some 0) = executeScript st env cmd none := by
    intro cmd
    simp [executeScript, effectiveTimeout]
  unfold call
  rcases hg : getScriptPath st env module with e | sp
  · rfl
  · dsimp only
    rcases hb : buildCommand st.shell sp action (paramsOrEmpty params) with - | cmd
    · rfl
    · dsimp only
      rw [hexec cmd]

/-- C10 witness: the fallback and the pass-through at concrete timeouts. -/
theorem timeout_zero_falls_back_witness :
    effectiveTimeout (some 0) 300 = 300 ∧ effectiveTimeout (some 5) 300 = 5 :=
  ⟨timeout_zero_falls_back.1 300, timeout_zero_falls_back.2.1 5 300 (by decide)⟩


end Bridge
